import Mathlib

/-!
Verification of the command-pacing / input-demultiplexing core of the
CrossFire client-interfacer (src/lib/client_interfacer.py).

The definitions below are a shallow embedding of the Python source:
  - `Command`, `Command.encode`, `Command.getsComc`  ~  class Command
  - `Tracker` and its operations  ~  the command-pipeline state of
    ClientInterfacer (_commandQueue, _pendingCommands,
    _targetPendingCommands) together with _pumpQueue, queueCommand,
    setTargetPendingCommands, dropAllQueuedCommands and the
    "watch comc" branch of _handleClientInput
  - `Item`, `PlayerInfo`, `handleRequestStat`  ~  the corresponding
    classes / methods
Python `collections.deque` queues (append right / popleft) are embedded
as Lean `List`s (append at the tail, pop at the head).  Python integers
are `Int`; the pending-count bookkeeping values, which are sizes of
queues, are `Nat`.  `targetPendingCommands` is `Nat`, following the data
model (a non-negative integer).
-/

namespace CrossfireCyborg

/-- Embedding of `class Command` (client_interfacer.py).  `count = none`
is Python's `count=None`; `DEFAULT_COUNT = 1` is applied in `encode`. -/
structure Command where
  commandString : String
  count : Option Int := none
  isSpecial : Bool := false
  deriving DecidableEq, Repr

/-- `Command.getsComc`: will a "comc" acknowledgement be sent for this
command?  Source: `return not self.isSpecial`. -/
def Command.getsComc (c : Command) : Bool :=
  !c.isSpecial

/-- `Command.encode`: the wire line sent to the client.  Source:
`ret = "issue "`; if not special, `ret += "%s 1 " % count` (with
`DEFAULT_COUNT = 1` when count is None); `ret += self.commandString`. -/
def Command.encode (c : Command) : String :=
  let ret := "issue "
  let ret :=
    if !c.isSpecial then
      let count := c.count.getD 1
      ret ++ toString count ++ " 1 "
    else
      ret
  ret ++ c.commandString

/-- The no-op command sent by `_sendNoOp`: `Command("stay")`. -/
def noOpCommand : Command :=
  { commandString := "stay" }

/-- The command-pipeline state of a `ClientInterfacer`:
`_commandQueue`, `_pendingCommands` (oldest first) and
`_targetPendingCommands`. -/
structure Tracker where
  commandQueue : List Command
  pendingCommands : List Command
  targetPendingCommands : Nat
  deriving DecidableEq, Repr

/-- The leading run of pending commands that will never be acknowledged:
the `numUncertain` loop in `_boundPendingCommandsLow`, which counts
commands from the front up to (not including) the first one with
`getsComc`. -/
def numUncertain : List Command → Nat
  | [] => 0
  | c :: rest => if c.getsComc then 0 else 1 + numUncertain rest

/-- The value computed by `_boundPendingCommandsLow`, as a function of
the pending list: `len(pending) - numUncertain`. -/
def pendingLow (p : List Command) : Nat :=
  p.length - numUncertain p

/-- `_boundPendingCommandsLow`: a lower bound on the number of pending
commands, `len(self._pendingCommands) - numUncertain`. -/
def boundPendingCommandsLow (t : Tracker) : Nat :=
  pendingLow t.pendingCommands

/-- `_boundPendingCommandsHigh`: `len(self._pendingCommands)`. -/
def boundPendingCommandsHigh (t : Tracker) : Nat :=
  t.pendingCommands.length

/-- `_hasTargetPendingCommands`:
`self._boundPendingCommandsLow() >= self._targetPendingCommands`. -/
def hasTargetPendingCommands (t : Tracker) : Prop :=
  t.targetPendingCommands ≤ boundPendingCommandsLow t

instance (t : Tracker) : Decidable (hasTargetPendingCommands t) := by
  unfold hasTargetPendingCommands; infer_instance

/-- The core invariant checked by `_checkInvariants`:
`self._hasTargetPendingCommands() or len(self._commandQueue) == 0`. -/
def trackerInvariant (t : Tracker) : Prop :=
  hasTargetPendingCommands t ∨ t.commandQueue = []

instance (t : Tracker) : Decidable (trackerInvariant t) := by
  unfold trackerInvariant; infer_instance

/-- The while-loop of `_pumpQueue`.  Arguments mirror the Python local
state: the remaining `_commandQueue`, the current `_pendingCommands`,
the local variables `lowBound` and `anyGetsComc`, and the accumulated
list of commands sent so far (each `_sendCommand` appends the command to
`_pendingCommands` and emits its encoding; we record the `Command`s in
dispatch order).  `target` is `_targetPendingCommands` and `maxC` is
`maxConsecutiveNonComc`. -/
def pumpLoop (target maxC : Nat) :
    List Command → List Command → Nat → Bool → List Command →
    List Command × List Command × List Command
  | [], pending, _, _, sent => ([], pending, sent)
  | nextCommand :: restQueue, pending, lowBound, anyGetsComc, sent =>
    if lowBound < target then
      if !anyGetsComc && !nextCommand.getsComc && maxC ≤ pending.length then
        -- no-ack workaround: send a no-op first (sets anyGetsComc := True,
        -- lowBound := 1), then send nextCommand (lowBound += 1).
        pumpLoop target maxC restQueue (pending ++ [noOpCommand, nextCommand])
          2 true (sent ++ [noOpCommand, nextCommand])
      else
        pumpLoop target maxC restQueue (pending ++ [nextCommand])
          (if anyGetsComc then lowBound + 1 else lowBound) anyGetsComc
          (sent ++ [nextCommand])
    else
      (nextCommand :: restQueue, pending, sent)

/-- `_pumpQueue`: dispatch queued commands until the queue is empty or
the (locally tracked) lower-bound pending count reaches the target.
Returns the new tracker state together with the list of commands sent,
in dispatch order. -/
def pumpQueue (t : Tracker) : Tracker × List Command :=
  let res := pumpLoop t.targetPendingCommands
    (max (t.targetPendingCommands - 1) 1)
    t.commandQueue t.pendingCommands (boundPendingCommandsLow t)
    (t.pendingCommands.any fun c => c.getsComc) []
  ({ t with commandQueue := res.1, pendingCommands := res.2.1 }, res.2.2)

/-- `queueCommand`: append to `_commandQueue`, then `_pumpQueue`. -/
def queueCommand (t : Tracker) (c : Command) : Tracker × List Command :=
  pumpQueue { t with commandQueue := t.commandQueue ++ [c] }

/-- `setTargetPendingCommands`: update the target, then `_pumpQueue`. -/
def setTargetPendingCommands (t : Tracker) (n : Nat) :
    Tracker × List Command :=
  pumpQueue { t with targetPendingCommands := n }

/-- `dropAllQueuedCommands`: clear `_commandQueue` only. -/
def dropAllQueuedCommands (t : Tracker) : Tracker :=
  { t with commandQueue := [] }

/-- The pop-from-front loop in the "watch comc" branch of
`_handleClientInput`: popleft until (and including) the first command
with `getsComc`; if no such command exists, everything is popped. -/
def popThroughComc : List Command → List Command
  | [] => []
  | c :: rest => if c.getsComc then rest else popThroughComc rest

/-- The "watch comc" branch of `_handleClientInput`: if
`_pendingCommands` is non-empty, pop through the first acknowledgeable
command and `_pumpQueue`; otherwise swallow the message. -/
def handleComc (t : Tracker) : Tracker × List Command :=
  if t.pendingCommands.isEmpty then
    (t, [])
  else
    pumpQueue { t with pendingCommands := popThroughComc t.pendingCommands }

/-- `_canWaitOnPendingCommands`: `len(self._pendingCommands) == 0 or
any(cmd.getsComc for cmd in self._pendingCommands)`. -/
def canWaitOnPendingCommands (t : Tracker) : Bool :=
  t.pendingCommands.isEmpty || (t.pendingCommands.any fun c => c.getsComc)

/-- `_ensureCanWaitOnPendingCommands`: if it is not safe to wait, send a
no-op (`_sendNoOp` = `_sendCommand(Command("stay"))` appends to
`_pendingCommands`).  Returns the new state and the commands sent. -/
def ensureCanWaitOnPendingCommands (t : Tracker) : Tracker × List Command :=
  if !canWaitOnPendingCommands t then
    ({ t with pendingCommands := t.pendingCommands ++ [noOpCommand] },
     [noOpCommand])
  else
    (t, [])

/-- The tracker operations named by the spec's invariant property:
enqueue (`queueCommand`), `pump`, acknowledgement handling,
`setTargetPendingCommands`, `dropAllQueuedCommands`. -/
inductive TrackerOp where
  | enqueue (c : Command)
  | pump
  | ack
  | setTarget (n : Nat)
  | dropQueued
  deriving DecidableEq, Repr

/-- Apply one tracker operation (discarding the wire output). -/
def applyOp (t : Tracker) : TrackerOp → Tracker
  | .enqueue c => (queueCommand t c).1
  | .pump => (pumpQueue t).1
  | .ack => (handleComc t).1
  | .setTarget n => (setTargetPendingCommands t n).1
  | .dropQueued => dropAllQueuedCommands t

/-- Apply a sequence of tracker operations, oldest first. -/
def applyOps (t : Tracker) (ops : List TrackerOp) : Tracker :=
  ops.foldl applyOp t

/-- The tracker state of a freshly constructed `ClientInterfacer`
(empty queue, no pending commands). -/
def initialTracker (target : Nat) : Tracker :=
  { commandQueue := [], pendingCommands := [], targetPendingCommands := target }

/-! ### String helpers (Python semantics, by code points) -/

/-- Worker for `pySplit`: walk the characters, accumulating the current
(reversed) field. -/
def pySplitAux : List Char → List Char → List String
  | [], acc => if acc.isEmpty then [] else [String.mk acc.reverse]
  | c :: rest, acc =>
    if c.isWhitespace then
      if acc.isEmpty then pySplitAux rest []
      else String.mk acc.reverse :: pySplitAux rest []
    else pySplitAux rest (c :: acc)

/-- Python `str.split()` with no separator: split on whitespace runs,
dropping empty pieces. -/
def pySplit (s : String) : List String :=
  pySplitAux s.data []

/-- Python `s.startswith(prefix)` (by code points). -/
def pyStartsWith (s p : String) : Bool :=
  p.data.isPrefixOf s.data

/-- Worker for `pyInt`: the value of a non-empty decimal digit string. -/
def pyDigitsAux : List Char → Nat → Option Nat
  | [], acc => some acc
  | c :: rest, acc =>
    if c.isDigit then pyDigitsAux rest (acc * 10 + (c.toNat - 48)) else none

/-- Python `int(s)` on the strings arriving in stat fields (an optional
sign followed by decimal digits); `none` when the parse raises
`ValueError`. -/
def pyInt (s : String) : Option Int :=
  match s.data with
  | [] => none
  | '-' :: ds => if ds.isEmpty then none else (pyDigitsAux ds 0).map fun n => -(n : Int)
  | '+' :: ds => if ds.isEmpty then none else (pyDigitsAux ds 0).map fun n => (n : Int)
  | ds => (pyDigitsAux ds 0).map fun n => (n : Int)

/-! ### Flushing (`flushCommands` / `idle`), claims C5 and C6 -/

/-- The wait condition of `flushCommands`:
`len(self._commandQueue) == 0 and self._boundPendingCommandsHigh() == 0`. -/
def flushDone (t : Tracker) : Bool :=
  t.commandQueue.isEmpty && t.pendingCommands.isEmpty

/-- The effect on the tracker of routing one inbound line
(`_handleClientInput`): only lines beginning with "watch comc" touch the
command pipeline; every other line goes to `PlayerInfo`, the item lists
or an inbound channel and leaves the tracker unchanged. -/
def handleLineTracker (t : Tracker) (msg : String) : Tracker :=
  if pyStartsWith msg "watch comc" then (handleComc t).1 else t

/-- One `idle()` call as seen by the tracker, given the batch of lines
the transport delivers during that call:
`_ensureCanWaitOnPendingCommands()`, then wait, then handle every
available line. -/
def idleSched (t : Tracker) (lines : List String) : Tracker :=
  lines.foldl handleLineTracker (ensureCanWaitOnPendingCommands t).1

/-- The `_idleUntil` loop of `flushCommands` over an arbitrary transport
schedule (one batch of delivered lines per `idle()` call).  `none` means
the loop has not terminated within `fuel` iterations (in particular, an
exhausted schedule models a transport that never delivers another line,
so `idle()` blocks forever). -/
def flushLoopSched : Nat → Tracker → List (List String) → Option Tracker
  | 0, _, _ => none
  | fuel + 1, t, sched =>
    if flushDone t then some t
    else
      match sched with
      | [] => none
      | lines :: rest => flushLoopSched fuel (idleSched t lines) rest

/-- `flushCommands` over an arbitrary transport schedule:
`_ensureCanWaitOnPendingCommands()`, then `_idleUntil` the wait
condition. -/
def flushCommandsSched (fuel : Nat) (t : Tracker) (sched : List (List String)) :
    Option Tracker :=
  flushLoopSched fuel (ensureCanWaitOnPendingCommands t).1 sched

/-- One `idle()` call under the fair simulated transport of the spec:
whenever an acknowledgeable command is pending, the transport delivers
its "watch comc" acknowledgement line.  (Modelled from the spec: the
claim quantifies over a simulated transport that eventually acknowledges
every acknowledgeable pending command; delay before delivery only
lengthens the blocking wait inside a single `idle()` call, so the
canonical fair schedule delivers the acknowledgement in the same
iteration.) -/
def idleFair (t : Tracker) : Tracker :=
  let t1 := (ensureCanWaitOnPendingCommands t).1
  if t1.pendingCommands.any fun c => c.getsComc then (handleComc t1).1 else t1

/-- The `_idleUntil` loop of `flushCommands` under the fair transport. -/
def flushLoopFair : Nat → Tracker → Option Tracker
  | 0, _ => none
  | fuel + 1, t => if flushDone t then some t else flushLoopFair fuel (idleFair t)

/-- `flushCommands` under the fair transport. -/
def flushCommandsFair (fuel : Nat) (t : Tracker) : Option Tracker :=
  flushLoopFair fuel (ensureCanWaitOnPendingCommands t).1

/-- `flushCommands` terminates (returns) within some finite number of
`idle()` iterations under the fair transport. -/
def FlushFairTerminates (t : Tracker) : Prop :=
  ∃ fuel, (flushCommandsFair fuel t).isSome = true

/-! ### Items (claim C8) -/

/-- Embedding of `class Item`.  The flags bitmask is a non-negative
integer assembled by the client (script_send_item). -/
structure Item where
  tag : Int
  num : Int
  weight : Int
  flags : Nat
  clientType : Int
  name : String
  deriving DecidableEq, Repr

/-- `Item._flagBit`: `(self.flags & bit) != 0`. -/
def Item.flagBit (it : Item) (bit : Nat) : Bool :=
  it.flags &&& bit ≠ 0

/-- `Item._setFlagBit`: `flags |= flag` when setting, and
`flags = flags & ~flag` when clearing.  On non-negative Python integers
`x & ~flag` keeps exactly the bits of `x` outside `flag`, which equals
`x - (x & flag)` (the bits of `x` inside `flag` plus the bits outside
`flag` sum to `x`). -/
def Item.setFlagBit (it : Item) (flag : Nat) (val : Bool) : Item :=
  if val then { it with flags := it.flags ||| flag }
  else { it with flags := it.flags - (it.flags &&& flag) }

def Item.unidentified (it : Item) : Bool := it.flagBit 0x0200
def Item.magical (it : Item) : Bool := it.flagBit 0x0100
def Item.cursed (it : Item) : Bool := it.flagBit 0x0080
def Item.damned (it : Item) : Bool := it.flagBit 0x0040
def Item.unpaid (it : Item) : Bool := it.flagBit 0x0020
def Item.locked (it : Item) : Bool := it.flagBit 0x0010
def Item.applied (it : Item) : Bool := it.flagBit 0x0008
/-- The `open` flag accessor (named `openFlag` here because `open` is a
Lean keyword). -/
def Item.openFlag (it : Item) : Bool := it.flagBit 0x0004
def Item.wasOpen (it : Item) : Bool := it.flagBit 0x0002
def Item.invUpdated (it : Item) : Bool := it.flagBit 0x0001

/-- The `locked` setter: `self._setFlagBit(0x0010, val)`. -/
def Item.setLocked (it : Item) (val : Bool) : Item :=
  it.setFlagBit 0x0010 val

/-! ### PlayerInfo and the stat-block response handler (claim C9) -/

/-- Embedding of `class PlayerInfo`.  Every field starts unset (`none` /
`false`). -/
structure PlayerInfo where
  tag : Option Int := none
  title : Option String := none
  havePlayerId : Bool := false
  hp : Option Int := none
  maxhp : Option Int := none
  sp : Option Int := none
  maxsp : Option Int := none
  grace : Option Int := none
  maxgrace : Option Int := none
  food : Option Int := none
  haveVitalStats : Bool := false
  wc : Option Int := none
  ac : Option Int := none
  dam : Option Int := none
  speed : Option Int := none
  weapon_sp : Option Int := none
  haveCombatStats : Bool := false
  str : Option Int := none
  con : Option Int := none
  dex : Option Int := none
  int : Option Int := none
  wis : Option Int := none
  pow : Option Int := none
  cha : Option Int := none
  haveAbilityScores : Bool := false
  deriving DecidableEq, Repr

/-- The freshly constructed `PlayerInfo()`. -/
def PlayerInfo.initial : PlayerInfo := {}

/-- `Color.RED` (client_interfacer.py). -/
def colorRed : Int := 3

/-- The wire line emitted by `draw(msg, color)`:
`"draw %s %s" % (color, msg)`. -/
def drawLine (color : Int) (msg : String) : String :=
  "draw " ++ toString color ++ " " ++ msg

/-- `logError(msg)`: `draw("ERROR: " + msg, color=Color.RED)` — the
report goes to the game display channel (client stdout), not to the
console/diagnostic stream (stderr, `_sendToConsole`). -/
def logErrorLine (msg : String) : String :=
  drawLine colorRed ("ERROR: " ++ msg)

/-- `PlayerInfo.setVitalStats`, applied to already-parsed integers. -/
def PlayerInfo.setVitalStats (pi : PlayerInfo)
    (hp maxhp sp maxsp grace maxgrace food : Int) : PlayerInfo :=
  { pi with hp := some hp, maxhp := some maxhp, sp := some sp,
            maxsp := some maxsp, grace := some grace,
            maxgrace := some maxgrace, food := some food,
            haveVitalStats := true }

/-- `PlayerInfo.setCombatStats`, applied to already-parsed integers. -/
def PlayerInfo.setCombatStats (pi : PlayerInfo)
    (wc ac dam speed weapon_sp : Int) : PlayerInfo :=
  { pi with wc := some wc, ac := some ac, dam := some dam,
            speed := some speed, weapon_sp := some weapon_sp,
            haveCombatStats := true }

/-- `PlayerInfo.setAbilityScores`, applied to already-parsed integers. -/
def PlayerInfo.setAbilityScores (pi : PlayerInfo)
    (str con dex int wis pow cha : Int) : PlayerInfo :=
  { pi with str := some str, con := some con, dex := some dex,
            int := some int, wis := some wis, pow := some pow,
            cha := some cha, haveAbilityScores := true }

/-- `_handleRequestStat(msg)` where `msg` has the leading
"request stat " already stripped.  The result is `none` when the Python
code would raise (an `int()` parse failure on a well-arity line), and
otherwise `some (playerInfo, clientLines, consoleLines)`: the updated
`PlayerInfo`, the lines written to the client (stdout: `draw` output),
and the lines written to the console/diagnostic stream (stderr). -/
def handleRequestStat (pi : PlayerInfo) (msg : String) :
    Option (PlayerInfo × List String × List String) :=
  if pyStartsWith msg "hp " then
    let parts := pySplit (msg.drop 3)
    if parts.length ≠ 7 then
      some (pi,
        [logErrorLine ("\"request stat hp\": got " ++ toString parts.length
          ++ " items, expected 7.")], [])
    else
      match parts.mapM pyInt with
      | some [hp, maxhp, sp, maxsp, grace, maxgrace, food] =>
        some (pi.setVitalStats hp maxhp sp maxsp grace maxgrace food, [], [])
      | _ => none
  else if pyStartsWith msg "cmbt " then
    let parts := pySplit (msg.drop 5)
    if parts.length ≠ 5 then
      some (pi,
        [logErrorLine ("\"request stat cmbt\": got " ++ toString parts.length
          ++ " items, expected 5.")], [])
    else
      match parts.mapM pyInt with
      | some [wc, ac, dam, speed, weapon_sp] =>
        some (pi.setCombatStats wc ac dam speed weapon_sp, [], [])
      | _ => none
  else if pyStartsWith msg "stats " then
    let parts := pySplit (msg.drop 6)
    if parts.length ≠ 7 then
      some (pi,
        [logErrorLine ("\"request stat stats\": got " ++ toString parts.length
          ++ " items, expected 7.")], [])
    else
      match parts.mapM pyInt with
      | some [str, con, dex, int, wis, pow, cha] =>
        some (pi.setAbilityScores str con dex int wis pow cha, [], [])
      | _ => none
  else
    some (pi, [logErrorLine ("Unrecognized request stat \"" ++ msg ++ "\"")], [])

/-- A stat-block response line whose payload does not split into the
fixed arity for its subtype (7 for hp, 5 for cmbt, 7 for stats). -/
def statArityMismatch (msg : String) : Prop :=
  (pyStartsWith msg "hp " = true ∧ (pySplit (msg.drop 3)).length ≠ 7) ∨
  (pyStartsWith msg "cmbt " = true ∧ (pySplit (msg.drop 5)).length ≠ 5) ∨
  (pyStartsWith msg "stats " = true ∧ (pySplit (msg.drop 6)).length ≠ 7)

instance (msg : String) : Decidable (statArityMismatch msg) := by
  unfold statArityMismatch; infer_instance

/-! ### The full interfacer state and `idle` with no input (claim C7) -/

/-- The mutable state of a `ClientInterfacer` relevant to routing:
the command pipeline, the typed inbound channels, the player info and
the item lists (association lists keyed by request type). -/
structure InterfacerState where
  tracker : Tracker
  pendingScripttells : List String := []
  pendingMiscInputs : List String := []
  playerInfo : PlayerInfo := {}
  itemLists : List (String × List Item) := []
  itemListsInProgress : List (String × List Item) := []
  deriving DecidableEq, Repr

/-- `idle(timeout)` on a call during which no input line becomes
available: `_checkInvariants` (no state change),
`_ensureCanWaitOnPendingCommands()` (may send a no-op),
`_waitForClientInput(timeout)` (times out), then
`_handlePendingClientInputs()` (nothing available, so a no-op).
Returns the new state and the wire lines sent to the client. -/
def idleNoInput (s : InterfacerState) : InterfacerState × List String :=
  let res := ensureCanWaitOnPendingCommands s.tracker
  ({ s with tracker := res.1 }, res.2.map fun c => c.encode)

/-! ### Concrete scenario inputs -/

/-- An ordinary (acknowledgeable) command with the given text. -/
def ordinaryCommand (s : String) : Command :=
  { commandString := s }

/-- A special (never-acknowledged) command with the given text, as
produced by `getMarkCommand` / `getApplyCommand` / `_getMoveCommand`. -/
def specialCommand (s : String) : Command :=
  { commandString := s, isSpecial := true }

/-- The C2 scenario: `targetPendingCommands = 3`, empty pending set, and
a queue of 10 consecutive non-acknowledgeable commands. -/
def noAckBurstTracker : Tracker :=
  { commandQueue :=
      [specialCommand "c1", specialCommand "c2", specialCommand "c3",
       specialCommand "c4", specialCommand "c5", specialCommand "c6",
       specialCommand "c7", specialCommand "c8", specialCommand "c9",
       specialCommand "c10"],
    pendingCommands := [], targetPendingCommands := 3 }

/-- The C3 scenario: with `targetPendingCommands = 2`, queue an ordinary
command, a special command, another ordinary command and two more
special commands (all legal public-API calls). -/
def c3EnqueueOps : List TrackerOp :=
  [.enqueue (ordinaryCommand "a1"), .enqueue (specialCommand "n1"),
   .enqueue (ordinaryCommand "q1"), .enqueue (specialCommand "q2"),
   .enqueue (specialCommand "q3")]

/-- The tracker reached by the C3 scenario, just before an
acknowledgement line arrives: pending = [a1, n1], queue = [q1, q2, q3]. -/
def c3PreAckTracker : Tracker :=
  applyOps (initialTracker 2) c3EnqueueOps

/-- The C6 counterexample state: `targetPendingCommands = 0`, one queued
ordinary command, nothing pending.  Reachable (e.g.
`setTargetPendingCommands(0)` then `queueCommand`) and satisfies the
core invariant. -/
def zeroTargetStuckTracker : Tracker :=
  { commandQueue := [ordinaryCommand "x"], pendingCommands := [],
    targetPendingCommands := 0 }

/-- The C7 counterexample state: a single non-acknowledgeable command is
pending (e.g. a `mark` command just dispatched by `queueCommand`). -/
def unsafeWaitState : InterfacerState :=
  { tracker :=
      { commandQueue := [], pendingCommands := [specialCommand "mark 42"],
        targetPendingCommands := 1 } }

/-- The C8 item: constructed with flags bitmask `0x0010 | 0x0100`. -/
def lockedMagicalItem : Item :=
  { tag := 1, num := 1, weight := 100, flags := 0x0010 ||| 0x0100,
    clientType := 51, name := "a leather pouch" }

/-- A witness state for the C6 termination theorem: one acknowledgeable
pending command, empty queue, target 1. -/
def flushWitnessTracker : Tracker :=
  { commandQueue := [], pendingCommands := [ordinaryCommand "w"],
    targetPendingCommands := 1 }

/-- A witness state for the C7 frame theorem: nothing pending, so
waiting is already safe. -/
def safeWaitState : InterfacerState :=
  { tracker := initialTracker 1 }

/-- A witness state for C10: two non-acknowledgeable pending commands
and one queued command. -/
def nonAckPendingTracker : Tracker :=
  { commandQueue := [ordinaryCommand "y"],
    pendingCommands := [specialCommand "m1", specialCommand "m2"],
    targetPendingCommands := 2 }

/-! ### Lemmas about the pending-count bookkeeping -/

theorem numUncertain_le_length (p : List Command) : numUncertain p ≤ p.length := by
  induction p with
  | nil => simp [numUncertain]
  | cons c rest ih =>
    simp only [numUncertain, List.length_cons]
    split <;> omega

theorem numUncertain_append_of_any (p l : List Command)
    (h : (p.any fun c => c.getsComc) = true) :
    numUncertain (p ++ l) = numUncertain p := by
  induction p with
  | nil => simp at h
  | cons c rest ih =>
    simp only [List.any_cons, Bool.or_eq_true] at h
    simp only [List.cons_append, numUncertain, List.append_eq]
    rcases h with h | h
    · simp [h]
    · split
      · rfl
      · rw [ih h]

theorem numUncertain_append_of_not_any (p l : List Command)
    (h : (p.any fun c => c.getsComc) = false) :
    numUncertain (p ++ l) = p.length + numUncertain l := by
  induction p with
  | nil => simp
  | cons c rest ih =>
    simp only [List.any_cons, Bool.or_eq_false_iff] at h
    simp only [List.cons_append, numUncertain, List.length_cons, List.append_eq]
    rw [if_neg (by simp [h.1]), ih h.2]
    omega

theorem numUncertain_eq_length_of_not_any (p : List Command)
    (h : (p.any fun c => c.getsComc) = false) :
    numUncertain p = p.length := by
  have := numUncertain_append_of_not_any p [] h
  simpa [numUncertain] using this

theorem pendingLow_append_le (p l : List Command) :
    pendingLow p ≤ pendingLow (p ++ l) := by
  unfold pendingLow
  cases h : p.any fun c => c.getsComc
  · rw [numUncertain_eq_length_of_not_any p h]
    omega
  · rw [numUncertain_append_of_any p l h]
    have := numUncertain_le_length p
    simp only [List.length_append]
    omega

theorem pendingLow_append_of_any (p l : List Command)
    (h : (p.any fun c => c.getsComc) = true) :
    pendingLow (p ++ l) = pendingLow p + l.length := by
  unfold pendingLow
  rw [numUncertain_append_of_any p l h]
  have := numUncertain_le_length p
  simp only [List.length_append]
  omega

theorem pendingLow_noop_pair (p : List Command) (c : Command) :
    2 ≤ pendingLow (p ++ [noOpCommand, c]) := by
  cases h : p.any fun cmd => cmd.getsComc
  · unfold pendingLow
    rw [numUncertain_append_of_not_any p _ h]
    have hnoop : numUncertain [noOpCommand, c] = 0 := by
      simp [numUncertain, noOpCommand, Command.getsComc]
    rw [hnoop]
    simp only [List.length_append, List.length_cons, List.length_nil]
    omega
  · rw [pendingLow_append_of_any p _ h]
    simp

/-! ### The postcondition of `_pumpQueue` (core invariant, claim C1) -/

/-- After the `_pumpQueue` loop, either the command queue is empty or
the true lower-bound pending count is at least the target.  The
hypotheses relate the loop's local variables to the real state: the
local `lowBound` never exceeds the true value, and `anyGetsComc = true`
only when some pending command is acknowledgeable. -/
theorem pumpLoop_post (target maxC : Nat) (queue : List Command) :
    ∀ (pending : List Command) (lowBound : Nat) (anyGC : Bool)
      (sent : List Command),
    (anyGC = true → (pending.any fun c => c.getsComc) = true) →
    lowBound ≤ pendingLow pending →
    (pumpLoop target maxC queue pending lowBound anyGC sent).1 = [] ∨
      target ≤
        pendingLow (pumpLoop target maxC queue pending lowBound anyGC sent).2.1 := by
  induction queue with
  | nil =>
    intro pending lowBound anyGC sent _ _
    simp [pumpLoop]
  | cons nextCommand restQueue ih =>
    intro pending lowBound anyGC sent h1 h2
    unfold pumpLoop
    by_cases hlt : lowBound < target
    · simp only [if_pos hlt]
      by_cases hwk :
          (!anyGC && !nextCommand.getsComc && decide (maxC ≤ pending.length)) = true
      · simp only [hwk, if_true]
        apply ih
        · intro _
          simp only [List.any_append, Bool.or_eq_true]
          right
          simp [noOpCommand, Command.getsComc]
        · exact pendingLow_noop_pair pending nextCommand
      · simp only [hwk, if_false]
        apply ih
        · intro hA
          cases anyGC
          · exact absurd hA (by simp)
          · simp only [List.any_append, Bool.or_eq_true]
            left
            exact h1 rfl
        · cases anyGC
          · simpa using le_trans h2 (pendingLow_append_le pending [nextCommand])
          · have hAny := h1 rfl
            rw [pendingLow_append_of_any pending [nextCommand] hAny]
            simpa using h2
    · simp only [if_neg hlt]
      right
      have : target ≤ lowBound := Nat.le_of_not_lt hlt
      exact le_trans this h2

/-- `_pumpQueue` re-establishes the core invariant from any state. -/
theorem pumpQueue_invariant (t : Tracker) : trackerInvariant (pumpQueue t).1 := by
  unfold trackerInvariant hasTargetPendingCommands boundPendingCommandsLow pumpQueue
  have := pumpLoop_post t.targetPendingCommands
    (max (t.targetPendingCommands - 1) 1) t.commandQueue
    t.pendingCommands (boundPendingCommandsLow t)
    (t.pendingCommands.any fun c => c.getsComc) []
    (fun h => h) (le_refl _)
  simp only []
  tauto

/-- Every tracker operation preserves the core invariant. -/
theorem applyOp_invariant (t : Tracker) (op : TrackerOp)
    (h : trackerInvariant t) : trackerInvariant (applyOp t op) := by
  cases op with
  | enqueue c =>
    show trackerInvariant (queueCommand t c).1
    unfold queueCommand
    exact pumpQueue_invariant _
  | pump => exact pumpQueue_invariant t
  | ack =>
    show trackerInvariant (handleComc t).1
    unfold handleComc
    split
    · exact h
    · exact pumpQueue_invariant _
  | setTarget n =>
    show trackerInvariant (setTargetPendingCommands t n).1
    unfold setTargetPendingCommands
    exact pumpQueue_invariant _
  | dropQueued => exact Or.inr rfl

theorem applyOps_invariant (ops : List TrackerOp) :
    ∀ (t : Tracker), trackerInvariant t → trackerInvariant (applyOps t ops) := by
  induction ops with
  | nil => intro t h; exact h
  | cons op rest ih =>
    intro t h
    exact ih _ (applyOp_invariant t op h)

/-! ### Lemmas about measures, popping and ensuring -/

/-- The termination measure for the flush loop. -/
def flushMeasure (t : Tracker) : Nat :=
  2 * t.commandQueue.length + t.pendingCommands.length

theorem pumpLoop_measure (target maxC : Nat) (queue : List Command) :
    ∀ (pending : List Command) (lowBound : Nat) (anyGC : Bool)
      (sent : List Command),
    2 * (pumpLoop target maxC queue pending lowBound anyGC sent).1.length +
        (pumpLoop target maxC queue pending lowBound anyGC sent).2.1.length ≤
      2 * queue.length + pending.length := by
  induction queue with
  | nil =>
    intro pending lowBound anyGC sent
    simp [pumpLoop]
  | cons nextCommand restQueue ih =>
    intro pending lowBound anyGC sent
    unfold pumpLoop
    by_cases hlt : lowBound < target
    · rw [if_pos hlt]
      by_cases hwk :
          (!anyGC && !nextCommand.getsComc && decide (maxC ≤ pending.length)) = true
      · rw [if_pos hwk]
        have := ih (pending ++ [noOpCommand, nextCommand]) 2 true
          (sent ++ [noOpCommand, nextCommand])
        simp only [List.length_append, List.length_cons, List.length_nil] at this ⊢
        omega
      · rw [if_neg hwk]
        have := ih (pending ++ [nextCommand])
          (if anyGC then lowBound + 1 else lowBound) anyGC (sent ++ [nextCommand])
        simp only [List.length_append, List.length_cons, List.length_nil] at this ⊢
        omega
    · rw [if_neg hlt]

theorem pumpQueue_measure (t : Tracker) :
    flushMeasure (pumpQueue t).1 ≤ flushMeasure t := by
  unfold flushMeasure pumpQueue
  exact pumpLoop_measure _ _ _ _ _ _ _

theorem pumpQueue_target (t : Tracker) :
    (pumpQueue t).1.targetPendingCommands = t.targetPendingCommands := rfl

theorem popThroughComc_length_lt (p : List Command) (h : p ≠ []) :
    (popThroughComc p).length < p.length := by
  induction p with
  | nil => exact absurd rfl h
  | cons c rest ih =>
    simp only [popThroughComc, List.length_cons]
    split
    · omega
    · rcases rest with _ | ⟨d, ds⟩
      · simp [popThroughComc]
      · have := ih (by simp)
        omega

/-- The pop-from-front loop pops everything when no pending command is
acknowledgeable but the last entry is (e.g. an injected no-op). -/
theorem popThroughComc_all_nonack_append (p : List Command) (c : Command)
    (h : ∀ cmd ∈ p, cmd.getsComc = false) (hc : c.getsComc = true) :
    popThroughComc (p ++ [c]) = [] := by
  induction p with
  | nil => simp [popThroughComc, hc]
  | cons d rest ih =>
    have hd : d.getsComc = false := h d (by simp)
    simp only [List.cons_append, popThroughComc, hd]
    rw [if_neg (by simp)]
    exact ih fun cmd hm => h cmd (by simp [hm])

/-- The pop-from-front loop pops everything when no pending command is
acknowledgeable. -/
theorem popThroughComc_all_nonack (p : List Command)
    (h : ∀ cmd ∈ p, cmd.getsComc = false) : popThroughComc p = [] := by
  induction p with
  | nil => rfl
  | cons d rest ih =>
    have hd : d.getsComc = false := h d (by simp)
    simp only [popThroughComc, hd]
    rw [if_neg (by simp)]
    exact ih fun cmd hm => h cmd (by simp [hm])

theorem ensure_canWait_true (t : Tracker)
    (h : canWaitOnPendingCommands t = true) :
    ensureCanWaitOnPendingCommands t = (t, []) := by
  simp [ensureCanWaitOnPendingCommands, h]

theorem ensure_invariant (t : Tracker) (h : trackerInvariant t) :
    trackerInvariant (ensureCanWaitOnPendingCommands t).1 := by
  unfold ensureCanWaitOnPendingCommands
  split
  · rcases h with h | h
    · left
      unfold hasTargetPendingCommands boundPendingCommandsLow at h ⊢
      exact le_trans h (pendingLow_append_le _ _)
    · right
      exact h
  · exact h

theorem ensure_target (t : Tracker) :
    (ensureCanWaitOnPendingCommands t).1.targetPendingCommands =
      t.targetPendingCommands := by
  unfold ensureCanWaitOnPendingCommands
  split <;> rfl

theorem ensure_queue (t : Tracker) :
    (ensureCanWaitOnPendingCommands t).1.commandQueue = t.commandQueue := by
  unfold ensureCanWaitOnPendingCommands
  split <;> rfl

theorem ensure_measure (t : Tracker) :
    flushMeasure (ensureCanWaitOnPendingCommands t).1 ≤ flushMeasure t + 1 := by
  unfold ensureCanWaitOnPendingCommands flushMeasure
  split
  · simp only [List.length_append, List.length_cons, List.length_nil]
    omega
  · show 2 * t.commandQueue.length + t.pendingCommands.length ≤
      2 * t.commandQueue.length + t.pendingCommands.length + 1
    omega

/-! ### The flush loops -/

theorem flushLoopSched_post (fuel : Nat) :
    ∀ (t : Tracker) (sched : List (List String)) (t' : Tracker),
      flushLoopSched fuel t sched = some t' → flushDone t' = true := by
  induction fuel with
  | zero =>
    intro t sched t' h
    simp [flushLoopSched] at h
  | succ n ih =>
    intro t sched t' h
    unfold flushLoopSched at h
    by_cases hd : flushDone t = true
    · rw [if_pos hd] at h
      cases h
      exact hd
    · rw [if_neg hd] at h
      cases sched with
      | nil => simp at h
      | cons lines rest => exact ih _ _ _ h

/-- One iteration of the fair-transport flush loop strictly decreases
the measure while preserving the invariant and the target. -/
theorem idleFair_step (t : Tracker) (hinv : trackerInvariant t)
    (htgt : 1 ≤ t.targetPendingCommands) (hnd : flushDone t = false) :
    trackerInvariant (idleFair t) ∧
      (idleFair t).targetPendingCommands = t.targetPendingCommands ∧
      flushMeasure (idleFair t) < flushMeasure t := by
  have hpne : t.pendingCommands ≠ [] := by
    intro hp
    rcases hinv with h | h
    · unfold hasTargetPendingCommands boundPendingCommandsLow at h
      rw [hp] at h
      simp [pendingLow, numUncertain] at h
      omega
    · unfold flushDone at hnd
      rw [h, hp] at hnd
      simp at hnd
  unfold idleFair
  by_cases hcw : canWaitOnPendingCommands t = true
  · rw [ensure_canWait_true t hcw]
    have hany : (t.pendingCommands.any fun c => c.getsComc) = true := by
      unfold canWaitOnPendingCommands at hcw
      rcases Bool.or_eq_true_iff.mp hcw with h | h
      · exact absurd (List.isEmpty_iff.mp h) hpne
      · exact h
    simp only [hany, if_true]
    unfold handleComc
    rw [if_neg (by simp [List.isEmpty_iff, hpne])]
    refine ⟨pumpQueue_invariant _, pumpQueue_target _, ?_⟩
    have h1 := pumpQueue_measure
      { t with pendingCommands := popThroughComc t.pendingCommands }
    have h2 := popThroughComc_length_lt t.pendingCommands hpne
    unfold flushMeasure at h1 ⊢
    simp only at h1
    omega
  · have hcw' : canWaitOnPendingCommands t = false := by
      simpa using hcw
    have hnoack : (t.pendingCommands.any fun c => c.getsComc) = false := by
      unfold canWaitOnPendingCommands at hcw'
      exact (Bool.or_eq_false_iff.mp hcw').2
    have hens : (ensureCanWaitOnPendingCommands t).1 =
        { t with pendingCommands := t.pendingCommands ++ [noOpCommand] } := by
      unfold ensureCanWaitOnPendingCommands
      rw [if_pos (by simp [hcw'])]
    rw [hens]
    have hany :
        (((t.pendingCommands ++ [noOpCommand]).any fun c => c.getsComc)) = true := by
      simp only [List.any_append, Bool.or_eq_true]
      right
      simp [noOpCommand, Command.getsComc]
    simp only [hany, if_true]
    unfold handleComc
    rw [if_neg (by simp)]
    have hpop : popThroughComc (t.pendingCommands ++ [noOpCommand]) = [] := by
      apply popThroughComc_all_nonack_append
      · intro cmd hm
        have := List.any_eq_false.mp hnoack cmd hm
        simpa using this
      · simp [noOpCommand, Command.getsComc]
    simp only [hpop]
    refine ⟨pumpQueue_invariant _, pumpQueue_target _, ?_⟩
    have h1 := pumpQueue_measure
      { t with pendingCommands := ([] : List Command) }
    unfold flushMeasure at h1 ⊢
    simp only [List.length_nil] at h1 ⊢
    have hlen : 1 ≤ t.pendingCommands.length :=
      List.length_pos.mpr hpne
    omega

theorem flushLoopFair_terminates (k : Nat) :
    ∀ (t : Tracker), flushMeasure t ≤ k → trackerInvariant t →
      1 ≤ t.targetPendingCommands →
      (flushLoopFair (k + 1) t).isSome = true := by
  induction k with
  | zero =>
    intro t hm _ _
    have hq : t.commandQueue = [] := by
      unfold flushMeasure at hm
      have := List.length_eq_zero.mp (by omega : t.commandQueue.length = 0)
      exact this
    have hp : t.pendingCommands = [] := by
      unfold flushMeasure at hm
      exact List.length_eq_zero.mp (by omega)
    unfold flushLoopFair
    rw [if_pos (by simp [flushDone, hq, hp])]
    rfl
  | succ n ih =>
    intro t hm hinv htgt
    unfold flushLoopFair
    by_cases hd : flushDone t = true
    · rw [if_pos hd]
      rfl
    · rw [if_neg hd]
      have hstep := idleFair_step t hinv htgt (by simpa using hd)
      exact ih (idleFair t) (by omega) hstep.1 (by rw [hstep.2.1]; exact htgt)

/-! ### The logError line -/

theorem logErrorLine_eq (m : String) :
    logErrorLine m = "draw 3 ERROR: " ++ m := by
  unfold logErrorLine drawLine colorRed
  have h3 : toString (3 : Int) = "3" := rfl
  rw [h3]
  rw [String.append_assoc, String.append_assoc]
  rfl

theorem pyStartsWith_append (p m : String) :
    pyStartsWith (p ++ m) p = true := by
  unfold pyStartsWith
  rw [List.isPrefixOf_iff_prefix]
  exact ⟨m.data, by simp⟩

theorem isPrefixOf_false_of_ne_head (a b : Char) (as bs l : List Char)
    (h : (a :: as).isPrefixOf l = true) (hne : ¬b = a) :
    (b :: bs).isPrefixOf l = false := by
  cases l with
  | nil => simp [List.isPrefixOf] at h
  | cons c cs =>
    simp only [List.isPrefixOf, Bool.and_eq_true, beq_iff_eq] at h
    simp only [List.isPrefixOf, Bool.and_eq_false_iff]
    left
    rw [h.1] at hne
    simpa using hne

theorem not_hp_of_cmbt (msg : String)
    (h : pyStartsWith msg "cmbt " = true) : pyStartsWith msg "hp " = false := by
  unfold pyStartsWith at h ⊢
  have hc : ("cmbt ").data = 'c' :: ['m', 'b', 't', ' '] := rfl
  have hh : ("hp ").data = 'h' :: ['p', ' '] := rfl
  rw [hc] at h
  rw [hh]
  exact isPrefixOf_false_of_ne_head 'c' 'h' _ _ _ h (by decide)

theorem not_hp_of_stats (msg : String)
    (h : pyStartsWith msg "stats " = true) : pyStartsWith msg "hp " = false := by
  unfold pyStartsWith at h ⊢
  have hs : ("stats ").data = 's' :: ['t', 'a', 't', 's', ' '] := rfl
  have hh : ("hp ").data = 'h' :: ['p', ' '] := rfl
  rw [hs] at h
  rw [hh]
  exact isPrefixOf_false_of_ne_head 's' 'h' _ _ _ h (by decide)

theorem not_cmbt_of_stats (msg : String)
    (h : pyStartsWith msg "stats " = true) :
    pyStartsWith msg "cmbt " = false := by
  unfold pyStartsWith at h ⊢
  have hs : ("stats ").data = 's' :: ['t', 'a', 't', 's', ' '] := rfl
  have hc : ("cmbt ").data = 'c' :: ['m', 'b', 't', ' '] := rfl
  rw [hs] at h
  rw [hc]
  exact isPrefixOf_false_of_ne_head 's' 'c' _ _ _ h (by decide)

/-! ### Claim theorems -/

/-- C1: for every sequence of tracker operations
(queueCommand/enqueue, pump, acknowledgement handling,
setTargetPendingCommands, dropAllQueuedCommands) from the freshly
constructed state, on exit from each operation the core invariant
holds: the lower-bound pending count (size of the pending set minus its
leading run of non-acknowledgeable commands) is at least
targetPendingCommands, or the command queue is empty. -/
theorem c1_core_invariant_all_ops (target : Nat) (ops : List TrackerOp) :
    trackerInvariant (applyOps (initialTracker target) ops) :=
  applyOps_invariant ops (initialTracker target) (Or.inr rfl)

/-- C2: with targetPendingCommands = 3, empty pending set and a queue of
10 consecutive non-acknowledgeable commands, a single pump() dispatches
exactly two consecutive non-acknowledgeable commands (c1, c2), then
injects one guaranteed-acknowledgeable no-op, and only then sends the
third real command (c3) — the real commands are not reordered (c4 is
also dispatched, bringing the locally tracked bound to the target, and
c5..c10 remain queued in order). -/
theorem c2_noack_workaround_injection :
    (pumpQueue noAckBurstTracker).2 =
      [specialCommand "c1", specialCommand "c2", noOpCommand,
       specialCommand "c3", specialCommand "c4"] ∧
    (specialCommand "c1").getsComc = false ∧
    (specialCommand "c2").getsComc = false ∧
    noOpCommand.getsComc = true ∧
    (pumpQueue noAckBurstTracker).1.commandQueue =
      [specialCommand "c5", specialCommand "c6", specialCommand "c7",
       specialCommand "c8", specialCommand "c9", specialCommand "c10"] := by
  decide

/-- C3: refuted by the code itself.  Starting from a fresh tracker with
targetPendingCommands = 2 and enqueueing a1 (ordinary), n1 (special),
q1 (ordinary), q2 (special), q3 (special), the arriving acknowledgement
pops a1 and pumps; that pump dispatches q1, an injected no-op and q2
(three commands, so it "actually dispatched something"), after which the
lower-bound pending count is 3 > max(2, 2).  The pump loop's local
`anyGetsComc` goes stale when the acknowledgeable q1 is dispatched while
it is False, so the code's own postcondition assert
`self._boundPendingCommandsLow() <= max(2, self._targetPendingCommands)`
fails (an AssertionError) at this reachable state. -/
theorem c3_pump_exceeds_documented_bound :
    (handleComc c3PreAckTracker).2 =
      [ordinaryCommand "q1", noOpCommand, specialCommand "q2"] ∧
    boundPendingCommandsLow (handleComc c3PreAckTracker).1 = 3 ∧
    boundPendingCommandsHigh (handleComc c3PreAckTracker).1 = 4 ∧
    max 2 c3PreAckTracker.targetPendingCommands = 2 := by
  decide

/-- C4 counterexample: a special command is NOT sent as its raw text;
`Command.encode` still prepends "issue " (it only omits the
"<count> 1 " part). -/
theorem c4_counterexample_issue_prefix :
    (specialCommand "mark 42").isSpecial = true ∧
    (specialCommand "mark 42").encode ≠ "mark 42" ∧
    (specialCommand "mark 42").encode = "issue mark 42" := by
  decide

/-- C4 (amended): for every command whose special flag is set, the wire
line emitted when it is sent is "issue " followed by the command's raw
text — no "<count> 1 " count prefix is added, but the "issue " prefix is
still present. -/
theorem c4_special_wire_encoding (c : Command) (h : c.isSpecial = true) :
    c.encode = "issue " ++ c.commandString := by
  simp [Command.encode, h]

theorem c4_special_wire_encoding_witness :
    (specialCommand "mark 42").isSpecial = true ∧
    (specialCommand "mark 42").encode = "issue " ++ "mark 42" :=
  ⟨rfl, c4_special_wire_encoding (specialCommand "mark 42") rfl⟩

/-- C5: whenever flushCommands() returns (under any transport schedule
whatsoever), the command queue is empty and the pending set itself is
empty — the upper bound `_boundPendingCommandsHigh` is exactly zero, not
merely below the target. -/
theorem c5_flush_reaches_true_zero (fuel : Nat) (t : Tracker)
    (sched : List (List String)) (t' : Tracker)
    (h : flushCommandsSched fuel t sched = some t') :
    t'.commandQueue = [] ∧ t'.pendingCommands = [] := by
  have hd := flushLoopSched_post fuel _ sched t' h
  unfold flushDone at hd
  rw [Bool.and_eq_true] at hd
  exact ⟨List.isEmpty_iff.mp hd.1, List.isEmpty_iff.mp hd.2⟩

theorem c5_flush_reaches_true_zero_witness :
    flushCommandsSched 1 (initialTracker 1) [] = some (initialTracker 1) ∧
    (initialTracker 1).commandQueue = [] ∧
    (initialTracker 1).pendingCommands = [] :=
  ⟨by decide,
   c5_flush_reaches_true_zero 1 (initialTracker 1) [] (initialTracker 1)
     (by decide)⟩

/-- C6 counterexample: with targetPendingCommands = 0, one queued
command and nothing pending — a reachable state satisfying the core
invariant — flushCommands() never terminates: nothing is ever pending,
so the fair transport owes (and delivers) no acknowledgement, every
idle() leaves the state unchanged, and the wait condition stays false. -/
theorem c6_counterexample_zero_target :
    ¬FlushFairTerminates zeroTargetStuckTracker := by
  have hens : (ensureCanWaitOnPendingCommands zeroTargetStuckTracker).1 =
      zeroTargetStuckTracker := by decide
  have hstep : ∀ n, flushLoopFair n zeroTargetStuckTracker = none := by
    intro n
    induction n with
    | zero => rfl
    | succ k ih =>
      unfold flushLoopFair
      rw [if_neg (by decide)]
      have hidle : idleFair zeroTargetStuckTracker = zeroTargetStuckTracker := by
        decide
      rw [hidle, ih]
  rintro ⟨fuel, hf⟩
  unfold flushCommandsFair at hf
  rw [hens, hstep fuel] at hf
  simp at hf

/-- C6 (amended): for every tracker state that satisfies the core
invariant and has targetPendingCommands ≥ 1, flushCommands() terminates
within a finite number of idle() iterations under the modeled fair
transport (which delivers an acknowledgement line whenever an
acknowledgeable command is pending); each idle() iteration
re-establishes that an acknowledgement can still arrive by injecting a
no-op when all pending commands are non-acknowledgeable. -/
theorem c6_flush_fair_terminates (t : Tracker) (hinv : trackerInvariant t)
    (htgt : 1 ≤ t.targetPendingCommands) : FlushFairTerminates t := by
  refine ⟨flushMeasure (ensureCanWaitOnPendingCommands t).1 + 1, ?_⟩
  unfold flushCommandsFair
  apply flushLoopFair_terminates
  · exact le_refl _
  · exact ensure_invariant t hinv
  · rw [ensure_target]
    exact htgt

theorem c6_flush_fair_terminates_witness :
    trackerInvariant flushWitnessTracker ∧
    1 ≤ flushWitnessTracker.targetPendingCommands ∧
    FlushFairTerminates flushWitnessTracker :=
  ⟨by decide, by decide,
   c6_flush_fair_terminates flushWitnessTracker (by decide) (by decide)⟩

/-- C7 counterexample: idle(timeout) on a call with no input is NOT
always side-effect free: when every pending command is
non-acknowledgeable, `_ensureCanWaitOnPendingCommands` (called
unconditionally at the top of idle()) sends a no-op command
("issue 1 1 stay") and appends it to the pending set, before the wait
even begins. -/
theorem c7_counterexample_noop_sent :
    idleNoInput unsafeWaitState ≠ (unsafeWaitState, []) ∧
    (idleNoInput unsafeWaitState).2 = ["issue 1 1 stay"] := by
  decide

/-- C7 (amended): for every state in which waiting on pending commands
is already safe (the pending set is empty or contains an acknowledgeable
command), a call to idle(timeout) during which no input line becomes
available returns with no observable side effect: no line is consumed,
nothing is sent, and all tracker/channel/player state is unchanged.
Otherwise idle sends exactly one no-op before waiting. -/
theorem c7_idle_timeout_frame (s : InterfacerState)
    (h : canWaitOnPendingCommands s.tracker = true) :
    idleNoInput s = (s, []) := by
  simp [idleNoInput, ensureCanWaitOnPendingCommands, h]

theorem c7_idle_timeout_frame_witness :
    canWaitOnPendingCommands safeWaitState.tracker = true ∧
    idleNoInput safeWaitState = (safeWaitState, []) :=
  ⟨by decide, c7_idle_timeout_frame safeWaitState (by decide)⟩

/-- C8: the Item constructed with flags bitmask 0x0010 | 0x0100 answers
locked = true and magical = true, every other flag query answers false,
and after setting locked = false its flags value equals 0x0100. -/
theorem c8_item_flags_roundtrip :
    lockedMagicalItem.locked = true ∧
    lockedMagicalItem.magical = true ∧
    lockedMagicalItem.unidentified = false ∧
    lockedMagicalItem.cursed = false ∧
    lockedMagicalItem.damned = false ∧
    lockedMagicalItem.unpaid = false ∧
    lockedMagicalItem.applied = false ∧
    lockedMagicalItem.openFlag = false ∧
    lockedMagicalItem.wasOpen = false ∧
    lockedMagicalItem.invUpdated = false ∧
    (lockedMagicalItem.setLocked false).flags = 0x0100 := by
  decide

/-- C9 counterexample: on the arity-mismatch line "request stat hp 1 2 3"
the error is NOT reported on the console/diagnostic stream (the third
component, stderr via `_sendToConsole`, stays empty); `logError` reports
it as a `draw` line on the game display channel (the second component,
stdout to the client).  The line is dropped and PlayerInfo is unchanged. -/
theorem c9_counterexample_report_channel :
    handleRequestStat PlayerInfo.initial "hp 1 2 3" =
      some (PlayerInfo.initial,
        ["draw 3 ERROR: \"request stat hp\": got 3 items, expected 7."],
        ([] : List String)) := by
  decide

/-- C9 (amended): for every inbound stat-block response line whose
payload does not split into exactly the fixed arity (7 for hp, 5 for
cmbt, 7 for stats), the router reports the error by drawing an ERROR
message on the game display channel (not the console/diagnostic
stream, which receives nothing) and drops the line without raising or
terminating, leaving every PlayerInfo field unchanged. -/
theorem c9_stat_arity_mismatch_dropped (pi : PlayerInfo) (msg : String)
    (h : statArityMismatch msg) :
    ∃ e, handleRequestStat pi msg = some (pi, [e], []) ∧
      pyStartsWith e "draw 3 ERROR: " = true := by
  rcases h with ⟨h1, h2⟩ | ⟨h1, h2⟩ | ⟨h1, h2⟩
  · refine ⟨logErrorLine ("\"request stat hp\": got "
      ++ toString (pySplit (msg.drop 3)).length ++ " items, expected 7."),
      ?_, ?_⟩
    · simp only [handleRequestStat]
      rw [if_pos h1, if_pos h2]
    · rw [logErrorLine_eq]
      exact pyStartsWith_append _ _
  · refine ⟨logErrorLine ("\"request stat cmbt\": got "
      ++ toString (pySplit (msg.drop 5)).length ++ " items, expected 5."),
      ?_, ?_⟩
    · have hhp := not_hp_of_cmbt msg h1
      simp only [handleRequestStat]
      rw [if_neg (by simp [hhp]), if_pos h1, if_pos h2]
    · rw [logErrorLine_eq]
      exact pyStartsWith_append _ _
  · refine ⟨logErrorLine ("\"request stat stats\": got "
      ++ toString (pySplit (msg.drop 6)).length ++ " items, expected 7."),
      ?_, ?_⟩
    · have hhp := not_hp_of_stats msg h1
      have hcm := not_cmbt_of_stats msg h1
      simp only [handleRequestStat]
      rw [if_neg (by simp [hhp]), if_neg (by simp [hcm]), if_pos h1, if_pos h2]
    · rw [logErrorLine_eq]
      exact pyStartsWith_append _ _

theorem c9_stat_arity_mismatch_dropped_witness :
    statArityMismatch "hp 1 2 3" ∧
    (∃ e, handleRequestStat PlayerInfo.initial "hp 1 2 3" =
      some (PlayerInfo.initial, [e], []) ∧
      pyStartsWith e "draw 3 ERROR: " = true) :=
  ⟨by decide,
   c9_stat_arity_mismatch_dropped PlayerInfo.initial "hp 1 2 3" (by decide)⟩

/-- C10: if an acknowledgement line ("watch comc") is handled while the
pending set is non-empty but contains no acknowledgeable command, the
pop-from-front loop removes every pending command (it does not stop when
it runs out of entries without finding an acknowledgeable one), and the
queue is pumped afterwards from the emptied-pending state. -/
theorem c10_comc_drains_nonack_pending (t : Tracker)
    (h1 : ∀ c ∈ t.pendingCommands, c.getsComc = false)
    (h2 : t.pendingCommands ≠ []) :
    handleComc t = pumpQueue { t with pendingCommands := [] } := by
  unfold handleComc
  rw [if_neg (by simp [List.isEmpty_iff, h2])]
  rw [popThroughComc_all_nonack t.pendingCommands h1]

theorem c10_comc_drains_nonack_pending_witness :
    (∀ c ∈ nonAckPendingTracker.pendingCommands, c.getsComc = false) ∧
    nonAckPendingTracker.pendingCommands ≠ [] ∧
    handleComc nonAckPendingTracker =
      pumpQueue { nonAckPendingTracker with pendingCommands := [] } :=
  ⟨by decide, by decide,
   c10_comc_drains_nonack_pending nonAckPendingTracker (by decide) (by decide)⟩

end CrossfireCyborg
